import Mathlib

/-
Verification of the SheetShift repository's core pipeline
(src/excelagent-2.py and src/tools/exceltool.py) through a shallow
embedding in Lean 4.

Modelling conventions:

* A pandas `DataFrame` is a `Df`: a header list plus a list of record
  rows (each row an association list from column name to cell text).
* Python strings are Lean `String`s; the character-level helpers
  (`lower`, `replace` of a single character, `strip`, substring test)
  are implemented on `List Char`.
* `exec` of a model-generated snippet is modelled by a semantic
  function (`Snippet`) that receives a reference to the DataFrame
  object bound to the name `df` in its namespace, together with the
  current object heap, and either succeeds with the final values of
  the designated output variables or raises with a message and a
  traceback string.  The heap (a list of `Df` cells addressed by
  position) makes object mutation observable, which is what the
  copy-before-execute guarantee is about.
* External library calls that the code treats as black boxes
  (`json.loads`, the Gemini model) are parameters: a parse function
  `String → Option IntentData` and an `Oracle` supplying the model's
  response text and the semantics of each generated snippet.  The
  second component of `process_query_all_sheets`'s result counts how
  many model calls were issued.
-/

-- ===============================
-- Data model: DataFrames
-- ===============================

/-- One row of a table: an association list from column name to cell text.
This is also what `DataFrame.to_dict(orient="records")` produces for a row. -/
abbrev Row := List (String × String)

/-- A pandas DataFrame: ordered headers plus record rows. -/
structure Df where
  columns : List String
  rows : List Row
deriving DecidableEq, Repr

/-- `pd.DataFrame()`: the empty DataFrame. -/
def emptyDf : Df := ⟨[], []⟩

instance : Inhabited Df := ⟨emptyDf⟩

/-- A Python value that a snippet can leave in one of its designated
output variables. -/
inductive PyValue where
  | pyStr (s : String)
  | pyInt (n : Int)
  | df (d : Df)
  | records (rs : List Row)
deriving DecidableEq, Repr

-- ===============================
-- Character-level string helpers
-- ===============================

/-- `str.lower()` on one character (ASCII, as used by the sources). -/
def pyLower (c : Char) : Char := Char.toLower c

/-- Python `needle in haystack` substring containment on char lists. -/
def containsSub (p : List Char) (s : List Char) : Bool :=
  match s with
  | [] => p.isEmpty
  | _ :: rest => p.isPrefixOf s || containsSub p rest

-- ===============================
-- Column Resolver (both copies)
-- ===============================

/-- `search_term.lower().replace("_", "").replace(" ", "")`: the
normalization both `find_column` copies apply to each side. -/
def normalizeTerm (s : String) : List Char :=
  ((s.toList.map pyLower).filter (fun c => decide (c ≠ '_'))).filter (fun c => decide (c ≠ ' '))

namespace ExcelAgent2

/-- `find_column` from src/excelagent-2.py: exact normalized match first,
then a partial pass that tests the substring relation in both
directions (`search_lower in normalized or normalized in search_lower`),
first match in header order, `None` when nothing qualifies. -/
def find_column (df : Df) (search_term : String) : Option String :=
  let search_lower := normalizeTerm search_term
  match df.columns.find? (fun col => decide (normalizeTerm col = search_lower)) with
  | some col => some col
  | none =>
      df.columns.find?
        (fun col => containsSub search_lower (normalizeTerm col) || containsSub (normalizeTerm col) search_lower)

end ExcelAgent2

namespace ExcelTool

/-- `find_column` from src/tools/exceltool.py: exact normalized match
first, then a partial pass that only tests `search_lower in normalized`
(one direction), `None` when nothing qualifies. -/
def find_column (df : Df) (search_term : String) : Option String :=
  let search_lower := normalizeTerm search_term
  match df.columns.find? (fun col => decide (normalizeTerm col = search_lower)) with
  | some col => some col
  | none => df.columns.find? (fun col => containsSub search_lower (normalizeTerm col))

end ExcelTool

/-- Modelled from the spec: the Column Resolver reference algorithm of
section 4.1 — "normalize both sides by lower-casing and stripping
spaces/underscores; first pass requires exact match of normalized
strings; second pass accepts the search term as a substring of a
normalized column name (or vice versa); first match wins in header
order", returning `none` ("not found") rather than raising when no
header qualifies. -/
def find_column_spec (headers : List String) (term : String) : Option String :=
  let nt := normalizeTerm term
  match headers.find? (fun col => decide (normalizeTerm col = nt)) with
  | some col => some col
  | none =>
      headers.find? (fun col => containsSub nt (normalizeTerm col) || containsSub (normalizeTerm col) nt)

-- ===============================
-- Claims C3, C4, C9: Column Resolver
-- ===============================

/-- Claim C3: for every table and every pair of search terms that agree
after lower-casing and dropping spaces and underscores (i.e. that
differ only by letter case, spaces, or underscores), both copies of the
Column Resolver return the same column for the two terms. -/
theorem find_column_case_space_underscore_invariant (df : Df) (t1 t2 : String)
    (h : normalizeTerm t1 = normalizeTerm t2) :
    ExcelAgent2.find_column df t1 = ExcelAgent2.find_column df t2 ∧
    ExcelTool.find_column df t1 = ExcelTool.find_column df t2 := by
  unfold ExcelAgent2.find_column ExcelTool.find_column
  rw [h]
  exact ⟨rfl, rfl⟩

/-- Witness for C3 at a concrete table and term pair. -/
theorem find_column_case_space_underscore_invariant_witness :
    normalizeTerm "Unit Price" = normalizeTerm "unit_price" ∧
    (ExcelAgent2.find_column ⟨["Item", "Unit_Price"], []⟩ "Unit Price" =
        ExcelAgent2.find_column ⟨["Item", "Unit_Price"], []⟩ "unit_price" ∧
      ExcelTool.find_column ⟨["Item", "Unit_Price"], []⟩ "Unit Price" =
        ExcelTool.find_column ⟨["Item", "Unit_Price"], []⟩ "unit_price") :=
  ⟨by decide,
    find_column_case_space_underscore_invariant ⟨["Item", "Unit_Price"], []⟩
      "Unit Price" "unit_price" (by decide)⟩

/-- Claim C4: `find_column` of src/excelagent-2.py coincides with the
spec's reference algorithm (exact normalized match first, then the
substring test in either direction, first match in header order, `none`
when nothing qualifies) on every header list and search term; being a
total function, it never raises. -/
theorem find_column_equals_reference (df : Df) (term : String) :
    ExcelAgent2.find_column df term = find_column_spec df.columns term := rfl

/-- Claim C9: the two duplicated Column Resolvers are not equivalent:
with headers `["Total"]` and search term `"Totals"`, the exceltool copy
(substring test in one direction only) returns `none` while the
excelagent-2 copy (substring test in both directions) returns
`some "Total"`. -/
theorem find_column_copies_differ :
    ∃ df term, ExcelTool.find_column df term ≠ ExcelAgent2.find_column df term :=
  ⟨⟨["Total"], []⟩, "Totals", by decide⟩

-- ===============================
-- Python str.strip and fence removal
-- ===============================

/-- The characters `str.strip()` removes. -/
def isPySpace (c : Char) : Bool :=
  c = ' ' || c = '\t' || c = '\n' || c = '\r' || c = '\x0b' || c = '\x0c'

/-- `str.lstrip()`. -/
def pyLStrip (cs : List Char) : List Char := cs.dropWhile isPySpace

/-- `str.rstrip()`. -/
def pyRStrip (cs : List Char) : List Char := (cs.reverse.dropWhile isPySpace).reverse

/-- `str.strip()`. -/
def pyStrip (cs : List Char) : List Char := pyRStrip (pyLStrip cs)

/-- `s.replace("```", "")` (the fence marker is three backquotes,
written `\x60` here): remove every leftmost non-overlapping occurrence. -/
def stripTicks : List Char → List Char
  | [] => []
  | [c] => [c]
  | [c1, c2] => [c1, c2]
  | c1 :: c2 :: c3 :: rest =>
    if c1 = '\x60' ∧ c2 = '\x60' ∧ c3 = '\x60' then stripTicks rest
    else c1 :: stripTicks (c2 :: c3 :: rest)

/-- `s.replace("```python", "")`. -/
def stripPyFence : List Char → List Char
  | '\x60' :: '\x60' :: '\x60' :: 'p' :: 'y' :: 't' :: 'h' :: 'o' :: 'n' :: rest =>
      stripPyFence rest
  | c :: rest => c :: stripPyFence rest
  | [] => []

/-- `s.replace("```json", "")`. -/
def stripJsonFence : List Char → List Char
  | '\x60' :: '\x60' :: '\x60' :: 'j' :: 's' :: 'o' :: 'n' :: rest =>
      stripJsonFence rest
  | c :: rest => c :: stripJsonFence rest
  | [] => []

/-- The three-backquote fence marker. -/
def tick3 : List Char := ['\x60', '\x60', '\x60']

/-- The python-annotated opening fence marker. -/
def pyFencePat : List Char := ['\x60', '\x60', '\x60', 'p', 'y', 't', 'h', 'o', 'n']

namespace ExcelTool

/-- `generate_code` of src/tools/exceltool.py as a function of the raw
model response text: `response.text.strip()`, removal of every
`"```python"` and then every `"```"` occurrence, and a final `.strip()`
on return. -/
def generate_code (responseText : String) : String :=
  let code := pyStrip responseText.toList
  let code := stripTicks (stripPyFence code)
  String.mk (pyStrip code)

end ExcelTool

namespace ExcelAgent2

/-- `generate_query_code` of src/excelagent-2.py performs the same
post-processing of the model response as exceltool's `generate_code`
(as do `generate_update_code` and `generate_new_sheet_code`). -/
def generate_query_code (responseText : String) : String :=
  let code := pyStrip responseText.toList
  let code := stripTicks (stripPyFence code)
  String.mk (pyStrip code)

end ExcelAgent2

-- ===============================
-- Lemmas about the string helpers
-- ===============================

theorem isPrefixOf_iff_append (p s : List Char) :
    p.isPrefixOf s = true ↔ ∃ t, s = p ++ t := by
  induction p generalizing s with
  | nil => simp [List.isPrefixOf]
  | cons x p ih =>
    cases s with
    | nil => simp [List.isPrefixOf]
    | cons y s =>
      simp only [List.isPrefixOf, Bool.and_eq_true, beq_iff_eq, ih, List.cons_append]
      constructor
      · rintro ⟨rfl, t, rfl⟩; exact ⟨t, rfl⟩
      · rintro ⟨t, ht⟩
        injection ht with h1 h2
        exact ⟨h1.symm, t, h2⟩

theorem containsSub_iff (p s : List Char) :
    containsSub p s = true ↔ ∃ a b, s = a ++ p ++ b := by
  induction s with
  | nil =>
    simp only [containsSub, List.isEmpty_iff]
    constructor
    · intro h; exact ⟨[], [], by simp [h]⟩
    · rintro ⟨a, b, hab⟩
      rcases List.append_eq_nil.mp (List.append_eq_nil.mp hab.symm).1 with ⟨_, hp⟩
      exact hp
  | cons c rest ih =>
    simp only [containsSub, Bool.or_eq_true, isPrefixOf_iff_append, ih]
    constructor
    · rintro (⟨t, ht⟩ | ⟨a, b, hab⟩)
      · exact ⟨[], t, by simp [ht]⟩
      · exact ⟨c :: a, b, by simp [hab]⟩
    · rintro ⟨a, b, hab⟩
      cases a with
      | nil => left; exact ⟨b, by simpa using hab⟩
      | cons x a =>
        right
        injection hab with h1 h2
        exact ⟨a, b, h2⟩

theorem containsSub_sub_false {p u : List Char} (a b : List Char)
    (h : containsSub p (a ++ u ++ b) = false) : containsSub p u = false := by
  cases hcu : containsSub p u with
  | false => rfl
  | true =>
    exfalso
    obtain ⟨x, y, hxy⟩ := (containsSub_iff p u).mp hcu
    have htr : containsSub p (a ++ u ++ b) = true :=
      (containsSub_iff _ _).mpr ⟨a ++ x, y ++ b, by simp [hxy]⟩
    rw [h] at htr
    exact absurd htr (by decide)

theorem stripTicks_not_start1 (cs : List Char)
    (h : ∀ ys, cs ≠ '\x60' :: ys) :
    ∀ ys, stripTicks cs ≠ '\x60' :: ys := by
  match cs with
  | [] => intro ys hc; simp [stripTicks] at hc
  | [c] => simpa [stripTicks] using h
  | [c1, c2] => simpa [stripTicks] using h
  | c1 :: c2 :: c3 :: r =>
    have hc1 : c1 ≠ '\x60' := by
      intro he; exact h (c2 :: c3 :: r) (by rw [he])
    intro ys hc
    simp only [stripTicks] at hc
    rw [if_neg (fun hand => hc1 hand.1)] at hc
    injection hc with h1 _
    exact hc1 h1

theorem stripTicks_not_start2 (cs : List Char)
    (h : ∀ ys, cs ≠ '\x60' :: '\x60' :: ys) :
    ∀ ys, stripTicks cs ≠ '\x60' :: '\x60' :: ys := by
  match cs with
  | [] => intro ys hc; simp [stripTicks] at hc
  | [c] => intro ys hc; simp [stripTicks] at hc
  | [c1, c2] => simpa [stripTicks] using h
  | c1 :: c2 :: c3 :: r =>
    by_cases hc1 : c1 = '\x60'
    · subst hc1
      have hc2 : c2 ≠ '\x60' := by
        intro he; exact h (c3 :: r) (by rw [he])
      intro ys hc
      simp only [stripTicks] at hc
      rw [if_neg (fun hand => hc2 hand.2.1)] at hc
      injection hc with _ h2
      exact stripTicks_not_start1 (c2 :: c3 :: r)
        (fun zs hz => hc2 (List.cons_eq_cons.mp hz).1) ys h2
    · intro ys hc
      simp only [stripTicks] at hc
      rw [if_neg (fun hand => hc1 hand.1)] at hc
      injection hc with h1 _
      exact hc1 h1

theorem stripTicks_no3_aux (cs : List Char) :
    ∀ a b, stripTicks cs ≠ a ++ tick3 ++ b := by
  induction cs using stripTicks.induct with
  | case1 =>
    intro a b hc
    have := congrArg List.length hc
    simp only [stripTicks, tick3, List.length_append, List.length_cons,
      List.length_nil] at this
    omega
  | case2 c =>
    intro a b hc
    have := congrArg List.length hc
    simp only [stripTicks, tick3, List.length_append, List.length_cons,
      List.length_nil] at this
    omega
  | case3 c1 c2 =>
    intro a b hc
    have := congrArg List.length hc
    simp only [stripTicks, tick3, List.length_append, List.length_cons,
      List.length_nil] at this
    omega
  | case4 c1 c2 c3 rest hcond ih =>
    intro a b
    simpa [stripTicks, hcond] using ih a b
  | case5 c1 c2 c3 rest hcond ih =>
    intro a b hc
    simp only [stripTicks, if_neg hcond] at hc
    cases a with
    | nil =>
      simp only [List.nil_append, tick3, List.cons_append] at hc
      injection hc with h1 h2
      subst h1
      have hc23 : ¬ (c2 = '\x60' ∧ c3 = '\x60') := fun hx => hcond ⟨rfl, hx.1, hx.2⟩
      refine stripTicks_not_start2 (c2 :: c3 :: rest) ?_ b h2
      intro zs hz
      injection hz with hz1 hz2
      injection hz2 with hz2 _
      exact hc23 ⟨hz1, hz2⟩
    | cons x a =>
      simp only [List.cons_append] at hc
      injection hc with _ h2
      exact ih a b h2

theorem stripTicks_no_tick3 (cs : List Char) :
    containsSub tick3 (stripTicks cs) = false := by
  cases h : containsSub tick3 (stripTicks cs) with
  | false => rfl
  | true =>
    obtain ⟨a, b, hab⟩ := (containsSub_iff _ _).mp h
    exact absurd hab (stripTicks_no3_aux cs a b)

theorem dropWhile_head?_not (p : Char → Bool) (l : List Char) (c : Char)
    (h : (List.dropWhile p l).head? = some c) : p c = false := by
  induction l with
  | nil => simp [List.dropWhile] at h
  | cons x xs ih =>
    rw [List.dropWhile_cons] at h
    split at h
    · exact ih h
    · next hx =>
      injection h with h2
      subst h2
      exact Bool.eq_false_iff.mpr hx

theorem pyRStrip_decomp (cs : List Char) :
    cs = pyRStrip cs ++ (cs.reverse.takeWhile isPySpace).reverse := by
  unfold pyRStrip
  rw [← List.reverse_append, List.takeWhile_append_dropWhile, List.reverse_reverse]

theorem pyLStrip_decomp (cs : List Char) :
    cs = cs.takeWhile isPySpace ++ pyLStrip cs := by
  unfold pyLStrip
  rw [List.takeWhile_append_dropWhile]

theorem pyStrip_decomp (cs : List Char) :
    ∃ a b, cs = a ++ pyStrip cs ++ b := by
  refine ⟨cs.takeWhile isPySpace, ((pyLStrip cs).reverse.takeWhile isPySpace).reverse, ?_⟩
  conv_lhs => rw [pyLStrip_decomp cs]
  rw [List.append_assoc]
  congr 1
  exact pyRStrip_decomp (pyLStrip cs)

theorem pyStrip_head_not_space (cs : List Char) (c : Char)
    (h : (pyStrip cs).head? = some c) : isPySpace c = false := by
  have hs : pyStrip cs = pyRStrip (pyLStrip cs) := rfl
  have hdec := pyRStrip_decomp (pyLStrip cs)
  rw [← hs] at hdec
  cases hps : pyStrip cs with
  | nil => rw [hps] at h; simp at h
  | cons d ds =>
    rw [hps] at h hdec
    injection h with hdc
    have hh : (pyLStrip cs).head? = some d := by rw [hdec]; rfl
    have hfin := dropWhile_head?_not isPySpace cs d hh
    rw [hdc] at hfin
    exact hfin

theorem pyStrip_getLast_not_space (cs : List Char) (c : Char)
    (h : (pyStrip cs).getLast? = some c) : isPySpace c = false := by
  have hs : pyStrip cs = ((pyLStrip cs).reverse.dropWhile isPySpace).reverse := rfl
  rw [hs, List.getLast?_reverse] at h
  exact dropWhile_head?_not _ _ _ h

-- ===============================
-- Claim C8: generated code is fence-free and trimmed
-- ===============================

/-- Claim C8: for every model response text, the string returned by the
Code Generator (exceltool's `generate_code`; excelagent-2's
`generate_query_code` performs the identical post-processing, final
conjunct) contains no occurrence of the fence markers (three
backquotes, with or without the `python` tag) and has no leading or
trailing whitespace. -/
theorem generate_code_output_clean (s : String) :
    containsSub tick3 (ExcelTool.generate_code s).toList = false ∧
    containsSub pyFencePat (ExcelTool.generate_code s).toList = false ∧
    ((ExcelTool.generate_code s).toList.head?.all fun c => ! isPySpace c) = true ∧
    ((ExcelTool.generate_code s).toList.getLast?.all fun c => ! isPySpace c) = true ∧
    ExcelAgent2.generate_query_code s = ExcelTool.generate_code s := by
  have hts : (ExcelTool.generate_code s).toList
      = pyStrip (stripTicks (stripPyFence (pyStrip s.toList))) := rfl
  set u := stripTicks (stripPyFence (pyStrip s.toList)) with hu
  have h3 : containsSub tick3 u = false := stripTicks_no_tick3 _
  have h3' : containsSub tick3 (pyStrip u) = false := by
    obtain ⟨a, b, hab⟩ := pyStrip_decomp u
    exact containsSub_sub_false a b (by rw [← hab]; exact h3)
  refine ⟨by rw [hts]; exact h3', ?_, ?_, ?_, rfl⟩
  · rw [hts]
    cases hcp : containsSub pyFencePat (pyStrip u) with
    | false => rfl
    | true =>
      exfalso
      obtain ⟨a, b, hab⟩ := (containsSub_iff _ _).mp hcp
      have htr : containsSub tick3 (pyStrip u) = true :=
        (containsSub_iff _ _).mpr
          ⟨a, ['p', 'y', 't', 'h', 'o', 'n'] ++ b, by
            rw [hab]; simp [pyFencePat, tick3]⟩
      rw [h3'] at htr
      exact absurd htr (by decide)
  · rw [hts]
    cases hh : (pyStrip u).head? with
    | none => rfl
    | some c =>
      simp only [Option.all_some, Bool.not_eq_true']
      exact pyStrip_head_not_space u c hh
  · rw [hts]
    cases hh : (pyStrip u).getLast? with
    | none => rfl
    | some c =>
      simp only [Option.all_some, Bool.not_eq_true']
      exact pyStrip_getLast_not_space u c hh

-- ===============================
-- Intent Classifier (C2)
-- ===============================

/-- The fixed-shape JSON classification produced by the Intent
Classifier prompt of src/excelagent-2.py. -/
structure IntentData where
  intent : String
  target_sheets : Option (List String)
  new_sheet_name : Option String
  fields_to_update : Option (List String)
  description : String
deriving DecidableEq, Repr

namespace ExcelAgent2

/-- `detect_query_intent` of src/excelagent-2.py as a function of the
model's raw response text.  `jsonParse` stands for `json.loads`
followed by reading the five fields: it returns `none` exactly when the
text does not parse to a record of the expected shape (in Python the
raised exception is caught by the surrounding `try`).  The code strips
the response, removes every "```json" and then every "```" marker,
strips again, and parses; on failure it falls back to the default
`query_data` record carrying the raw user query as its description. -/
def detect_query_intent (jsonParse : String → Option IntentData)
    (responseText user_query : String) : IntentData :=
  let result_text := pyStrip responseText.toList
  let result_text := stripTicks (stripJsonFence result_text)
  match jsonParse (String.mk (pyStrip result_text)) with
  | some intent_data => intent_data
  | none =>
      { intent := "query_data", target_sheets := none, new_sheet_name := none,
        fields_to_update := none, description := user_query }

end ExcelAgent2

/-- Claim C2: whenever the classifier's response text does not parse as
JSON after stripping and fence-marker removal, `detect_query_intent`
returns the fallback record with intent `"query_data"`, null
`target_sheets`, `new_sheet_name` and `fields_to_update`, and the raw
user instruction as description; being a total function, it never
propagates a parse exception. -/
theorem detect_query_intent_fallback (jsonParse : String → Option IntentData)
    (responseText user_query : String)
    (h : jsonParse
        (String.mk (pyStrip (stripTicks (stripJsonFence (pyStrip responseText.toList)))))
      = none) :
    ExcelAgent2.detect_query_intent jsonParse responseText user_query =
      { intent := "query_data", target_sheets := none, new_sheet_name := none,
        fields_to_update := none, description := user_query } := by
  unfold ExcelAgent2.detect_query_intent
  dsimp only
  rw [h]

/-- Witness for C2: a parser that rejects everything, applied to a
non-JSON response. -/
theorem detect_query_intent_fallback_witness :
    (fun _ : String => (none : Option IntentData))
        (String.mk (pyStrip (stripTicks (stripJsonFence (pyStrip ("I cannot answer that." : String).toList)))))
      = none ∧
    ExcelAgent2.detect_query_intent (fun _ => none) "I cannot answer that." "what is the total?" =
      { intent := "query_data", target_sheets := none, new_sheet_name := none,
        fields_to_update := none, description := "what is the total?" } :=
  ⟨rfl,
    detect_query_intent_fallback (fun _ => none) "I cannot answer that." "what is the total?" rfl⟩

-- ===============================
-- os.path model (posixpath)
-- ===============================

def isSlash (c : Char) : Bool := decide (c = '/')

/-- `str.rstrip(chars)`: drop trailing characters satisfying `p`. -/
def dropTrailing (p : Char → Bool) (cs : List Char) : List Char :=
  (cs.reverse.dropWhile p).reverse

theorem dropTrailing_decomp (p : Char → Bool) (cs : List Char) :
    cs = dropTrailing p cs ++ (cs.reverse.takeWhile p).reverse := by
  unfold dropTrailing
  rw [← List.reverse_append, List.takeWhile_append_dropWhile, List.reverse_reverse]

theorem dropTrailing_getLast (p : Char → Bool) (cs : List Char) (c : Char)
    (h : (dropTrailing p cs).getLast? = some c) : p c = false := by
  unfold dropTrailing at h
  rw [List.getLast?_reverse] at h
  exact dropWhile_head?_not _ _ _ h

/-- Index of the last occurrence of `c` (Python `s.rfind(c)`), `none`
when absent. -/
def lastIdxOf (c : Char) : List Char → Option Nat
  | [] => none
  | x :: xs =>
    match lastIdxOf c xs with
    | some i => some (i + 1)
    | none => if x = c then some 0 else none

theorem lastIdxOf_none (c : Char) (cs : List Char) (h : lastIdxOf c cs = none) :
    ∀ x ∈ cs, x ≠ c := by
  induction cs with
  | nil => simp
  | cons y ys ih =>
    cases hys : lastIdxOf c ys with
    | some i => simp [lastIdxOf, hys] at h
    | none =>
      simp only [lastIdxOf, hys] at h
      by_cases hyc : y = c
      · rw [if_pos hyc] at h
        exact absurd h (by simp)
      · intro x hx
        rcases List.mem_cons.mp hx with rfl | hx2
        · exact hyc
        · exact ih hys x hx2

theorem lastIdxOf_getElem (c : Char) (cs : List Char) (j : Nat)
    (h : lastIdxOf c cs = some j) : cs[j]? = some c := by
  induction cs generalizing j with
  | nil => simp [lastIdxOf] at h
  | cons y ys ih =>
    cases hys : lastIdxOf c ys with
    | some i =>
      simp only [lastIdxOf, hys, Option.some.injEq] at h
      subst h
      simpa using ih i hys
    | none =>
      simp only [lastIdxOf, hys] at h
      split at h
      · next hyc =>
        injection h with h0
        subst h0
        simp [hyc]
      · exact absurd h (by simp)

theorem lastIdxOf_drop (c : Char) (cs : List Char) (j : Nat)
    (h : lastIdxOf c cs = some j) : ∀ x ∈ cs.drop (j + 1), x ≠ c := by
  induction cs generalizing j with
  | nil => simp [lastIdxOf] at h
  | cons y ys ih =>
    cases hys : lastIdxOf c ys with
    | some i =>
      simp only [lastIdxOf, hys, Option.some.injEq] at h
      subst h
      simpa using ih i hys
    | none =>
      simp only [lastIdxOf, hys] at h
      split at h
      · injection h with h0
        subst h0
        simpa using lastIdxOf_none c ys hys
      · exact absurd h (by simp)

/-- `os.path.split`: split after the last slash; strip trailing slashes
from the head unless the head consists only of slashes. -/
def os_path_split (cs : List Char) : List Char × List Char :=
  let i := match lastIdxOf '/' cs with
    | some j => j + 1
    | none => 0
  let head := cs.take i
  let tail := cs.drop i
  let head2 :=
    if head ≠ [] ∧ ¬ (head.all isSlash = true) then dropTrailing isSlash head
    else head
  (head2, tail)

/-- `os.path.splitext`: split off the extension at the last dot, unless
every character between the last slash and that dot is itself a dot. -/
def os_path_splitext (cs : List Char) : List Char × List Char :=
  let sepi := match lastIdxOf '/' cs with
    | some j => j + 1
    | none => 0
  match lastIdxOf '.' cs with
  | none => (cs, [])
  | some d =>
    if sepi ≤ d ∧ ((cs.drop sepi).take (d - sepi)).any (fun c => decide (c ≠ '.')) then
      (cs.take d, cs.drop d)
    else (cs, [])

/-- `os.path.join` for the two-argument use in the sources. -/
def os_path_join (a b : List Char) : List Char :=
  if b.head? = some '/' then b
  else if a = [] ∨ a.getLast? = some '/' then a ++ b
  else a ++ '/' :: b

theorem os_path_splitext_append (cs : List Char) :
    (os_path_splitext cs).1 ++ (os_path_splitext cs).2 = cs := by
  unfold os_path_splitext
  dsimp only
  cases lastIdxOf '.' cs with
  | none => simp
  | some d =>
    dsimp only
    split
    · exact List.take_append_drop d cs
    · simp

theorem os_path_splitext_ext (cs : List Char) :
    (os_path_splitext cs).2 = [] ∨ (os_path_splitext cs).2.head? = some '.' := by
  unfold os_path_splitext
  dsimp only
  cases hd : lastIdxOf '.' cs with
  | none => left; rfl
  | some d =>
    dsimp only
    split
    · right
      rw [List.head?_drop]
      exact lastIdxOf_getElem '.' cs d hd
    · left; rfl

theorem splitext_sfx_ne (fname sfx : List Char) (hs : sfx.head? = some '_') :
    (os_path_splitext fname).1 ++ sfx ≠ fname := by
  intro he
  have hdec := os_path_splitext_append fname
  have he2 : (os_path_splitext fname).1 ++ sfx
      = (os_path_splitext fname).1 ++ (os_path_splitext fname).2 := by
    rw [hdec]
    exact he
  have hse := List.append_cancel_left he2
  rcases os_path_splitext_ext fname with h0 | hdot
  · rw [h0] at hse
    rw [hse] at hs
    simp at hs
  · rw [hse] at hs
    rw [hdot] at hs
    simp at hs

theorem outname_head_ne_slash (tail sfx : List Char) (hs : sfx.head? = some '_')
    (htail : ∀ x ∈ tail, x ≠ '/') :
    ¬ ((os_path_splitext tail).1 ++ sfx).head? = some '/' := by
  intro hh
  cases hn : (os_path_splitext tail).1 with
  | nil =>
    rw [hn, List.nil_append, hs] at hh
    simp at hh
  | cons y ys =>
    rw [hn, List.cons_append] at hh
    injection hh with hy
    have hmem : y ∈ tail := by
      rw [← os_path_splitext_append tail, hn]
      exact List.mem_append_left _ (List.mem_cons_self y ys)
    exact htail y hmem hy

theorem outPath_ne_source (cs sfx : List Char) (hs : sfx.head? = some '_') :
    os_path_join (os_path_split cs).1 ((os_path_splitext (os_path_split cs).2).1 ++ sfx)
      ≠ cs := by
  cases hlast : lastIdxOf '/' cs with
  | none =>
    have hsplit : os_path_split cs = ([], cs) := by
      simp [os_path_split, hlast]
    rw [hsplit]
    have htail : ∀ x ∈ cs, x ≠ '/' := lastIdxOf_none _ _ hlast
    show os_path_join [] ((os_path_splitext cs).1 ++ sfx) ≠ cs
    unfold os_path_join
    rw [if_neg (outname_head_ne_slash cs sfx hs htail), if_pos (Or.inl rfl),
      List.nil_append]
    exact splitext_sfx_ne cs sfx hs
  | some j =>
    have hj : cs[j]? = some '/' := lastIdxOf_getElem _ _ _ hlast
    have hsplit : os_path_split cs =
        (if cs.take (j + 1) ≠ [] ∧ ¬ ((cs.take (j + 1)).all isSlash = true)
         then dropTrailing isSlash (cs.take (j + 1)) else cs.take (j + 1),
         cs.drop (j + 1)) := by
      simp [os_path_split, hlast]
    rw [hsplit]
    have htail : ∀ x ∈ cs.drop (j + 1), x ≠ '/' := lastIdxOf_drop _ _ _ hlast
    have htake : cs.take (j + 1) = cs.take j ++ ['/'] := by
      rw [List.take_succ, hj]
      rfl
    have hlastc : (cs.take (j + 1)).getLast? = some '/' := by
      rw [htake]
      exact List.getLast?_concat _
    have hhd_ne : cs.take (j + 1) ≠ [] := by
      rw [htake]
      simp
    have hcs : cs.take (j + 1) ++ cs.drop (j + 1) = cs := List.take_append_drop _ _
    have hnf := outname_head_ne_slash (cs.drop (j + 1)) sfx hs htail
    by_cases hA : cs.take (j + 1) ≠ [] ∧ ¬ ((cs.take (j + 1)).all isSlash = true)
    · rw [if_pos hA]
      have hdd := dropTrailing_decomp isSlash (cs.take (j + 1))
      set d := dropTrailing isSlash (cs.take (j + 1)) with hd_def
      set tr := ((cs.take (j + 1)).reverse.takeWhile isSlash).reverse with htr_def
      have htr_mem : ∀ x ∈ tr, isSlash x = true := by
        intro x hx
        rw [htr_def, List.mem_reverse] at hx
        exact List.mem_takeWhile_imp hx
      have htr_ne : tr ≠ [] := by
        intro h0
        have hde : d = cs.take (j + 1) := by
          rw [hdd, h0, List.append_nil]
        have hglast : d.getLast? = some '/' := by
          rw [hde]
          exact hlastc
        have := dropTrailing_getLast isSlash (cs.take (j + 1)) '/' hglast
        simp [isSlash] at this
      have hd_last : d.getLast? ≠ some '/' := by
        intro hx
        have := dropTrailing_getLast isSlash (cs.take (j + 1)) '/' hx
        simp [isSlash] at this
      have hd_ne : d ≠ [] := by
        intro h0
        apply hA.2
        have : cs.take (j + 1) = tr := by rw [hdd, h0, List.nil_append]
        rw [this]
        exact List.all_eq_true.mpr htr_mem
      have hjoin : os_path_join d ((os_path_splitext (cs.drop (j + 1))).1 ++ sfx) =
          d ++ '/' :: ((os_path_splitext (cs.drop (j + 1))).1 ++ sfx) := by
        unfold os_path_join
        rw [if_neg hnf, if_neg (not_or.mpr ⟨hd_ne, hd_last⟩)]
      rw [hjoin]
      intro he
      have he3 : d ++ '/' :: ((os_path_splitext (cs.drop (j + 1))).1 ++ sfx)
          = d ++ (tr ++ cs.drop (j + 1)) := by
        rw [← List.append_assoc, ← hdd, hcs]
        exact he
      have he2 := List.append_cancel_left he3
      cases htr_case : tr with
      | nil => exact htr_ne htr_case
      | cons t0 tr2 =>
        have ht0 : t0 = '/' := by
          have := htr_mem t0 (by rw [htr_case]; exact List.mem_cons_self _ _)
          simpa [isSlash] using this
        rw [htr_case, List.cons_append] at he2
        injection he2 with hh1 hh2
        cases htr2_case : tr2 with
        | nil =>
          rw [htr2_case, List.nil_append] at hh2
          exact splitext_sfx_ne (cs.drop (j + 1)) sfx hs hh2
        | cons t1 tr3 =>
          have ht1 : t1 = '/' := by
            have := htr_mem t1 (by
              rw [htr_case, htr2_case]
              exact List.mem_cons_of_mem _ (List.mem_cons_self _ _))
            simpa [isSlash] using this
          apply hnf
          rw [hh2, htr2_case, List.cons_append, ht1]
          rfl
    · rw [if_neg hA]
      have hjoin : os_path_join (cs.take (j + 1))
          ((os_path_splitext (cs.drop (j + 1))).1 ++ sfx) =
          cs.take (j + 1) ++ ((os_path_splitext (cs.drop (j + 1))).1 ++ sfx) := by
        unfold os_path_join
        rw [if_neg hnf, if_pos (Or.inr hlastc)]
      rw [hjoin]
      intro he
      have he3 : cs.take (j + 1) ++ ((os_path_splitext (cs.drop (j + 1))).1 ++ sfx)
          = cs.take (j + 1) ++ cs.drop (j + 1) := by
        rw [hcs]
        exact he
      exact splitext_sfx_ne (cs.drop (j + 1)) sfx hs (List.append_cancel_left he3)

namespace ExcelAgent2

/-- The output path computed by `save_updated_excel` of
src/excelagent-2.py: `dirname, fname = os.path.split(path)`;
`name, ext = os.path.splitext(fname)`;
`os.path.join(dirname, f"{name}_updated_{timestamp}.xlsx")`. -/
def save_updated_excel_path (path timestamp : String) : String :=
  let pr := os_path_split path.toList
  let pr2 := os_path_splitext pr.2
  String.mk (os_path_join pr.1 (pr2.1 ++ ("_updated_" ++ timestamp ++ ".xlsx").toList))

end ExcelAgent2

namespace ExcelTool

/-- The output path computed by `save_result_to_excel` of
src/tools/exceltool.py: `f"{name}_result_{timestamp}.xlsx"` joined onto
the directory part of `base_path`. -/
def save_result_to_excel_path (base_path timestamp : String) : String :=
  let pr := os_path_split base_path.toList
  let pr2 := os_path_splitext pr.2
  String.mk (os_path_join pr.1 (pr2.1 ++ ("_result_" ++ timestamp ++ ".xlsx").toList))

end ExcelTool

/-- Claim C6: for every source path and every timestamp, the output
paths computed by both Persistence Writers (`save_updated_excel` in
src/excelagent-2.py and `save_result_to_excel` in
src/tools/exceltool.py) differ from the source path, so a save never
overwrites the input file. -/
theorem save_path_never_source (path ts : String) :
    ExcelAgent2.save_updated_excel_path path ts ≠ path ∧
    ExcelTool.save_result_to_excel_path path ts ≠ path := by
  constructor
  · intro he
    exact outPath_ne_source path.toList ("_updated_" ++ ts ++ ".xlsx").toList rfl
      (congrArg String.data he)
  · intro he
    exact outPath_ne_source path.toList ("_result_" ++ ts ++ ".xlsx").toList rfl
      (congrArg String.data he)

-- ===============================
-- Snippet execution model (C1, C10)
-- ===============================

/-- A reference to a DataFrame object: its position in the heap. -/
abbrev Ref := Nat

/-- The object heap: DataFrame objects addressed by position.  Python
code can mutate a DataFrame in place, so the heap makes such mutation
observable. -/
abbrev Heap := List Df

/-- The final values of the designated output variables after a
successful `exec`, together with the heap it leaves behind. -/
structure SnipEffect where
  heap : Heap
  result : Option PyValue
  new_sheet_name : Option String
  new_df : Option Df

/-- Outcome of executing a snippet: success with the output-variable
values, or a raised condition with message, traceback and the heap at
the moment of the raise. -/
inductive SnipOut where
  | ok (eff : SnipEffect)
  | err (msg trace : String) (heap : Heap)

def SnipOut.finalHeap : SnipOut → Heap
  | .ok eff => eff.heap
  | .err _ _ h => h

/-- Semantics of one generated code snippet: a function of the
reference bound to the variable `df` in its local namespace and of the
current heap. -/
def Snippet := Ref → Heap → SnipOut

/-- `exec` runs the snippet with an empty global namespace, so the code
reaches only the objects seeded into its local namespace: `df` (the
copy) plus the non-DataFrame helpers `pd`, `find_column`, `datetime`.
A snippet is scoped when it leaves every pre-existing heap cell other
than the one bound to `df` unchanged (it may freely mutate its own cell
and allocate new ones). -/
def ScopedSnippet (s : Snippet) : Prop :=
  ∀ r h i, i ≠ r → i < h.length → (s r h).finalHeap[i]? = h[i]?

/-- The dict `execute_snippet` returns: one optional field per key the
Python dict can carry. -/
structure ExecRecord where
  ok : Bool
  result : Option PyValue := none
  new_sheet_name : Option String := none
  new_df : Option Df := none
  error : Option String := none
  traceback : Option String := none
deriving DecidableEq, Repr

namespace ExcelAgent2

/-- `execute_snippet` of src/excelagent-2.py: seed the local namespace
with `df.copy()` — a fresh heap cell holding the same table — run the
snippet, and package the outcome.  On success the dict carries the
final values of `result`, `new_sheet_name` and `new_df`; on a raised
condition it carries `ok: False`, `error: str(e)` and the traceback.
`extra_vars` is `None` at every call site and is omitted.  The second
component is the heap after the call. -/
def execute_snippet (snippet : Snippet) (dfRef : Ref) (h : Heap) : ExecRecord × Heap :=
  let df := h[dfRef]?.getD emptyDf
  let h1 := h ++ [df]
  match snippet h.length h1 with
  | .ok eff =>
    ({ ok := true, result := eff.result, new_sheet_name := eff.new_sheet_name,
       new_df := eff.new_df }, eff.heap)
  | .err msg tb h2 => ({ ok := false, error := some msg, traceback := some tb }, h2)

end ExcelAgent2

namespace ExcelTool

/-- `execute_snippet` of src/tools/exceltool.py: like excelagent-2's,
but the success dict carries only `result`, and a DataFrame result is
converted by `result.head(50).to_dict(orient="records")` before being
returned. -/
def execute_snippet (snippet : Snippet) (dfRef : Ref) (h : Heap) : ExecRecord × Heap :=
  let df := h[dfRef]?.getD emptyDf
  let h1 := h ++ [df]
  match snippet h.length h1 with
  | .ok eff =>
    let result := match eff.result with
      | some (.df d) => some (.records (d.rows.take 50))
      | r => r
    ({ ok := true, result := result }, eff.heap)
  | .err msg tb h2 => ({ ok := false, error := some msg, traceback := some tb }, h2)

end ExcelTool

/-- Claim C1: for every DataFrame and snippet, when the snippet raises,
both cited executors — `execute_snippet` of src/excelagent-2.py and
`execute_snippet` of src/tools/exceltool.py — return the dict
`{ok: False, error: message, traceback: full stack}` and the original
DataFrame passed by the caller is unmodified afterwards: each executor
seeded the namespace with a copy, and a scoped snippet can only touch
its own cells. -/
theorem execute_snippet_error_keeps_original (snippet : Snippet) (dfRef : Ref)
    (h : Heap) (df : Df) (msg tb : String) (h2 : Heap)
    (hscope : ScopedSnippet snippet)
    (hdf : h[dfRef]? = some df)
    (herr : snippet h.length (h ++ [df]) = .err msg tb h2) :
    ((ExcelAgent2.execute_snippet snippet dfRef h).1 =
        { ok := false, error := some msg, traceback := some tb } ∧
      (ExcelAgent2.execute_snippet snippet dfRef h).2[dfRef]? = some df) ∧
    ((ExcelTool.execute_snippet snippet dfRef h).1 =
        { ok := false, error := some msg, traceback := some tb } ∧
      (ExcelTool.execute_snippet snippet dfRef h).2[dfRef]? = some df) := by
  have hlt : dfRef < h.length := by
    rw [List.getElem?_eq_some] at hdf
    exact hdf.1
  have hfin : (snippet h.length (h ++ [df])).finalHeap = h2 := by
    rw [herr]
    rfl
  have hfr := hscope h.length (h ++ [df]) dfRef (Nat.ne_of_lt hlt)
    (by rw [List.length_append]; exact Nat.lt_succ_of_lt hlt)
  rw [hfin] at hfr
  have hcell : h2[dfRef]? = some df := by
    rw [hfr, List.getElem?_append_left hlt]
    exact hdf
  have hredA : ExcelAgent2.execute_snippet snippet dfRef h =
      ({ ok := false, error := some msg, traceback := some tb }, h2) := by
    unfold ExcelAgent2.execute_snippet
    dsimp only
    rw [hdf]
    simp only [Option.getD_some]
    rw [herr]
  have hredT : ExcelTool.execute_snippet snippet dfRef h =
      ({ ok := false, error := some msg, traceback := some tb }, h2) := by
    unfold ExcelTool.execute_snippet
    dsimp only
    rw [hdf]
    simp only [Option.getD_some]
    rw [herr]
  exact ⟨⟨by rw [hredA], by rw [hredA]; exact hcell⟩,
    ⟨by rw [hredT], by rw [hredT]; exact hcell⟩⟩

/-- Witness for C1: a snippet that always raises, run through both
executors on a one-cell heap. -/
theorem execute_snippet_error_keeps_original_witness :
    ScopedSnippet (fun _ h => SnipOut.err "division by zero" "Traceback: boom" h) ∧
    ([(⟨["Item"], [[("Item", "Pen")]]⟩ : Df)] : Heap)[0]? = some ⟨["Item"], [[("Item", "Pen")]]⟩ ∧
    (fun (_ : Ref) (h : Heap) => SnipOut.err "division by zero" "Traceback: boom" h) 1
        ([(⟨["Item"], [[("Item", "Pen")]]⟩ : Df)] ++ [⟨["Item"], [[("Item", "Pen")]]⟩]) =
      SnipOut.err "division by zero" "Traceback: boom"
        [⟨["Item"], [[("Item", "Pen")]]⟩, ⟨["Item"], [[("Item", "Pen")]]⟩] ∧
    (((ExcelAgent2.execute_snippet (fun _ h => SnipOut.err "division by zero" "Traceback: boom" h)
            0 [⟨["Item"], [[("Item", "Pen")]]⟩]).1 =
          { ok := false, error := some "division by zero", traceback := some "Traceback: boom" } ∧
        (ExcelAgent2.execute_snippet (fun _ h => SnipOut.err "division by zero" "Traceback: boom" h)
            0 [⟨["Item"], [[("Item", "Pen")]]⟩]).2[0]? = some ⟨["Item"], [[("Item", "Pen")]]⟩) ∧
      ((ExcelTool.execute_snippet (fun _ h => SnipOut.err "division by zero" "Traceback: boom" h)
            0 [⟨["Item"], [[("Item", "Pen")]]⟩]).1 =
          { ok := false, error := some "division by zero", traceback := some "Traceback: boom" } ∧
        (ExcelTool.execute_snippet (fun _ h => SnipOut.err "division by zero" "Traceback: boom" h)
            0 [⟨["Item"], [[("Item", "Pen")]]⟩]).2[0]? = some ⟨["Item"], [[("Item", "Pen")]]⟩)) :=
  ⟨fun _ _ _ _ _ => rfl, rfl, rfl,
    execute_snippet_error_keeps_original _ 0 _ _ _ _ _ (fun _ _ _ _ _ => rfl) rfl rfl⟩

/-- Claim C10: in the single-sheet query tool, whenever the snippet
succeeds with a DataFrame in its `result` variable,
`ExcelTool.execute_snippet` returns that DataFrame converted to at most
its first 50 rows as a list of records — never the DataFrame itself,
with rows beyond the first 50 dropped. -/
theorem exceltool_result_truncated_records (snippet : Snippet) (dfRef : Ref) (h : Heap)
    (eff : SnipEffect) (d : Df)
    (hok : snippet h.length (h ++ [h[dfRef]?.getD emptyDf]) = .ok eff)
    (hres : eff.result = some (.df d)) :
    (ExcelTool.execute_snippet snippet dfRef h).1 =
      { ok := true, result := some (.records (d.rows.take 50)) } ∧
    (d.rows.take 50).length ≤ 50 := by
  constructor
  · unfold ExcelTool.execute_snippet
    dsimp only
    rw [hok]
    dsimp only
    rw [hres]
  · exact List.length_take_le 50 d.rows

/-- A snippet for the C10 witness: it leaves a 52-row DataFrame in its
`result` variable. -/
def c10Snippet : Snippet := fun _ h =>
  SnipOut.ok ⟨h, some (.df ⟨["A"], List.replicate 52 [("A", "1")]⟩), none, none⟩

/-- The effect `c10Snippet` produces on the heap of the C10 witness. -/
def c10Eff : SnipEffect :=
  ⟨[] ++ [([] : Heap)[0]?.getD emptyDf],
    some (.df ⟨["A"], List.replicate 52 [("A", "1")]⟩), none, none⟩

/-- Witness for C10: running `c10Snippet` through the exceltool
executor returns the first 50 of the 52 rows as records. -/
theorem exceltool_result_truncated_records_witness :
    c10Snippet ([] : Heap).length ([] ++ [([] : Heap)[0]?.getD emptyDf]) = SnipOut.ok c10Eff ∧
    c10Eff.result = some (.df ⟨["A"], List.replicate 52 [("A", "1")]⟩) ∧
    ((ExcelTool.execute_snippet c10Snippet 0 []).1 =
        { ok := true,
          result := some (.records ((Df.mk ["A"] (List.replicate 52 [("A", "1")])).rows.take 50)) } ∧
      ((Df.mk ["A"] (List.replicate 52 [("A", "1")])).rows.take 50).length ≤ 50) :=
  ⟨rfl, rfl,
    exceltool_result_truncated_records c10Snippet 0 [] c10Eff
      ⟨["A"], List.replicate 52 [("A", "1")]⟩ rfl rfl⟩

-- ===============================
-- Tabular Loader and pipeline (C5, C7)
-- ===============================

/-- A workbook: ordered mapping from sheet name to table. -/
structure Workbook where
  sheets : List (String × Df)
deriving DecidableEq, Repr

def Workbook.sheet_names (w : Workbook) : List String := w.sheets.map Prod.fst

/-- What pandas would produce when reading a given on-disk file with
each reader: the single table `pd.read_csv` yields, and the named
sheets `pd.ExcelFile`/`pd.read_excel` yield. -/
structure FileData where
  asCsv : Df
  asSheets : List (String × Df)
deriving DecidableEq, Repr

/-- The raised conditions of the pipeline stages modelled here. -/
inductive RunError where
  | valueError (msg : String)
  | fileNotFound (msg : String)
  | typeError (msg : String)
deriving DecidableEq, Repr

/-- `os.path.splitext(path)[1].lower()`. -/
def pathExtLower (path : String) : String :=
  String.mk ((os_path_splitext path.toList).2.map pyLower)

namespace ExcelAgent2

/-- `load_all_sheets` of src/excelagent-2.py: reject an empty path
(`ValueError`), then a nonexistent one (`FileNotFoundError`); read
`.csv` as the single sheet "CSV", `.xls`/`.xlsx` as all their sheets,
and reject any other extension (`ValueError`).  The filesystem is the
association list of existing paths and their contents; the columns,
preview and shape the source also returns are derived from each
sheet's table. -/
def load_all_sheets (fs : List (String × FileData)) (path : String) :
    Except RunError Workbook :=
  if path = "" then
    .error (.valueError "A valid path to the Excel file is required.")
  else
    match fs.lookup path with
    | none => .error (.fileNotFound ("File not found: " ++ path))
    | some data =>
      let ext := pathExtLower path
      if ext = ".csv" then .ok ⟨[("CSV", data.asCsv)]⟩
      else if ext = ".xls" ∨ ext = ".xlsx" then .ok ⟨data.asSheets⟩
      else .error (.valueError
        "Unsupported file type. Only .xlsx, .xls, and .csv are supported.")

end ExcelAgent2

/-- The external Gemini model as an oracle: the classifier's response
text, the semantics of `json.loads` on the expected record shape, and
the semantics of each snippet the generator calls return.  Every
classifier or generator invocation is one model call. -/
structure Oracle where
  intentResponse : String
  jsonParse : String → Option IntentData
  newSheetSnippet : Snippet
  updateSnippet : String → Snippet
  querySnippet : Snippet

/-- The `results` dict `process_query_all_sheets` builds.
`query_result = some r` means the key is present with value `r`
(itself an optional Python value). -/
structure ProcResults where
  intent : String
  sheets_processed : List String
  new_sheets : List (String × Df)
  errors : List String
  query_result : Option (Option PyValue) := none
  saved_path : Option String := none
deriving DecidableEq, Repr

/-- Python `x or default` on the optional sheet-name string: both
`None` and the empty string are falsy. -/
def pyOrDefault (x : Option String) (dflt : String) : String :=
  match x with
  | some s => if s = "" then dflt else s
  | none => dflt

/-- Replace the value stored under a key of an association list
(Python dict item assignment for an existing key). -/
def assocSet (l : List (String × Df)) (k : String) (v : Df) : List (String × Df) :=
  l.map (fun p => if p.1 = k then (k, v) else p)

/-- Accumulator of the update loop: current sheet tables, processed
names, recorded errors, model calls issued. -/
structure UpdAcc where
  sheets : List (String × Df)
  processed : List String
  errors : List String
  calls : Nat

namespace ExcelAgent2

/-- One iteration of the `update_existing` loop of
`process_query_all_sheets`: sheets absent from the workbook are
skipped; otherwise one `generate_update_code` model call and one
`execute_snippet` run on the sheet's table — the result replaces the
sheet when the snippet left a DataFrame in `result`, a non-DataFrame
result is only warned about, and a raised condition is recorded in
`errors`. -/
def update_one (o : Oracle) (acc : UpdAcc) (sheet_name : String) : UpdAcc :=
  match acc.sheets.lookup sheet_name with
  | none => acc
  | some df =>
    let er := (execute_snippet (o.updateSnippet sheet_name) 0 [df]).1
    if er.ok then
      match er.result with
      | some (.df updated) =>
        { sheets := assocSet acc.sheets sheet_name updated,
          processed := acc.processed ++ [sheet_name],
          errors := acc.errors, calls := acc.calls + 1 }
      | _ => { acc with calls := acc.calls + 1 }
    else
      { acc with
        errors := acc.errors ++
          ["Error in " ++ sheet_name ++ ": " ++ er.error.getD "None"],
        calls := acc.calls + 1 }

/-- `process_query_all_sheets` of src/excelagent-2.py: load all sheets,
classify the intent (one model call), dispatch on it, and set
`saved_path` to the timestamped output path when any sheet was updated
or created (the save itself is modelled as succeeding).  The second
component counts the model calls issued.  A `None` `target_sheets` in
the update branch raises the `TypeError` of `"all" in None`. -/
def process_query_all_sheets (fs : List (String × FileData)) (o : Oracle)
    (ts : String) (path user_query : String) :
    Except RunError ProcResults × Nat :=
  match load_all_sheets fs path with
  | .error e => (.error e, 0)
  | .ok wb =>
    let sheets := wb.sheets
    let sheet_names := wb.sheet_names
    let intent_info := detect_query_intent o.jsonParse o.intentResponse user_query
    if intent_info.intent = "create_new_sheet" then
      let er := (execute_snippet o.newSheetSnippet 0 [emptyDf]).1
      if er.ok && er.new_df.isSome then
        let nsn := pyOrDefault er.new_sheet_name ("NewSheet_" ++ ts)
        (.ok { intent := intent_info.intent, sheets_processed := [],
               new_sheets := [(nsn, er.new_df.getD emptyDf)], errors := [],
               saved_path := some (save_updated_excel_path path ts) }, 2)
      else
        (.ok { intent := intent_info.intent, sheets_processed := [], new_sheets := [],
               errors := ["Failed to create new sheet: " ++ er.error.getD "Unknown error"] },
         2)
    else if intent_info.intent = "update_existing" then
      match intent_info.target_sheets with
      | none => (.error (.typeError "argument of type 'NoneType' is not iterable"), 1)
      | some target_sheets =>
        let sheets_to_update :=
          if "all" ∈ target_sheets then sheet_names else target_sheets
        let fin := sheets_to_update.foldl (update_one o) ⟨sheets, [], [], 0⟩
        (.ok { intent := intent_info.intent, sheets_processed := fin.processed,
               new_sheets := [], errors := fin.errors,
               saved_path := if fin.processed ≠ [] then
                 some (save_updated_excel_path path ts) else none },
         1 + fin.calls)
    else
      match sheet_names.head? with
      | none =>
        (.ok { intent := intent_info.intent, sheets_processed := [],
               new_sheets := [], errors := [] }, 1)
      | some target =>
        let df := (sheets.lookup target).getD emptyDf
        let er := (execute_snippet o.querySnippet 0 [df]).1
        if er.ok then
          (.ok { intent := intent_info.intent, sheets_processed := [], new_sheets := [],
                 errors := [], query_result := some er.result }, 2)
        else
          (.ok { intent := intent_info.intent, sheets_processed := [], new_sheets := [],
                 errors := [er.error.getD "None"] }, 2)

end ExcelAgent2

-- ===============================
-- Claim C5: missing file fails before any model call
-- ===============================

/-- A snippet used only to fill the unused oracle fields of the C5
instances. -/
def c5Dummy : Snippet := fun _ h => SnipOut.err "dummy" "dummy" h

/-- A concrete oracle for the C5 instances. -/
def c5Oracle : Oracle :=
  ⟨"", fun _ => none, c5Dummy, fun _ => c5Dummy, c5Dummy⟩

/-- Does a pipeline run fail with the loader's `FileNotFoundError`? -/
def resultIsNotFound : Except RunError ProcResults × Nat → Bool
  | (.error (.fileNotFound _), _) => true
  | _ => false

/-- Counterexample to C5 as stated: the empty path does not exist on
any filesystem (`os.path.exists("") == False`), yet the pipeline fails
with the loader's `ValueError` ("A valid path … is required"), not with
`FileNotFoundError`.  No model call is attempted either way. -/
theorem process_empty_path_valueerror :
    ExcelAgent2.process_query_all_sheets [] c5Oracle "20250101_000000" "" "total?" =
      (.error (.valueError "A valid path to the Excel file is required."), 0) ∧
    resultIsNotFound
      (ExcelAgent2.process_query_all_sheets [] c5Oracle "20250101_000000" "" "total?") = false :=
  ⟨rfl, rfl⟩

/-- Claim C5 (amended: restricted to nonempty paths — the empty path,
which also does not exist, raises the loader's `ValueError` instead):
for every nonempty input path absent from the filesystem, the pipeline
fails with the loader's `FileNotFoundError`, and the model-call count
is zero — the load step precedes intent classification and code
generation. -/
theorem process_missing_path_notfound (fs : List (String × FileData)) (o : Oracle)
    (ts path q : String) (hne : path ≠ "") (hnf : fs.lookup path = none) :
    ExcelAgent2.process_query_all_sheets fs o ts path q =
      (.error (.fileNotFound ("File not found: " ++ path)), 0) := by
  unfold ExcelAgent2.process_query_all_sheets ExcelAgent2.load_all_sheets
  rw [if_neg hne, hnf]

/-- Witness for C5 (amended) at a concrete missing path. -/
theorem process_missing_path_notfound_witness :
    ("missing.xlsx" : String) ≠ "" ∧
    ([] : List (String × FileData)).lookup "missing.xlsx" = none ∧
    ExcelAgent2.process_query_all_sheets [] c5Oracle "20250101_000000" "missing.xlsx" "total?" =
      (.error (.fileNotFound ("File not found: " ++ "missing.xlsx")), 0) :=
  ⟨by decide, rfl,
    process_missing_path_notfound [] c5Oracle "20250101_000000" "missing.xlsx" "total?"
      (by decide) rfl⟩

-- ===============================
-- Claim C7: recorded name of a created sheet
-- ===============================

/-- Claim C7 (amended): on every successful `create_new_sheet` run (the
snippet succeeds and yields a non-null `new_df`), the new table is
recorded under the snippet's returned `new_sheet_name` — or under
`NewSheet_<timestamp>` when that name is null or empty — with no
distinctness check against the existing sheet names, so the recorded
name is distinct from them only when the snippet's chosen name is. -/
theorem create_records_snippet_name (fs : List (String × FileData)) (o : Oracle)
    (ts path q : String) (wb : Workbook) (d : Df)
    (hload : ExcelAgent2.load_all_sheets fs path = .ok wb)
    (hintent : (ExcelAgent2.detect_query_intent o.jsonParse o.intentResponse q).intent
      = "create_new_sheet")
    (hok : (ExcelAgent2.execute_snippet o.newSheetSnippet 0 [emptyDf]).1.ok = true)
    (hdf : (ExcelAgent2.execute_snippet o.newSheetSnippet 0 [emptyDf]).1.new_df = some d) :
    ExcelAgent2.process_query_all_sheets fs o ts path q =
      (.ok { intent := "create_new_sheet", sheets_processed := [],
             new_sheets :=
               [(pyOrDefault
                   (ExcelAgent2.execute_snippet o.newSheetSnippet 0 [emptyDf]).1.new_sheet_name
                   ("NewSheet_" ++ ts), d)],
             errors := [],
             saved_path := some (ExcelAgent2.save_updated_excel_path path ts) }, 2) := by
  unfold ExcelAgent2.process_query_all_sheets
  rw [hload]
  dsimp only
  rw [hintent, if_pos rfl, hok, hdf]
  simp only [Option.isSome_some, Bool.and_self, if_pos, Option.getD_some]

/-- The table the C7 counterexample's snippet creates. -/
def c7Df : Df := ⟨["Item"], [[("Item", "Eraser")], [("Item", "Ruler")]]⟩

/-- Oracle of the C7 counterexample: the classifier yields a
`create_new_sheet` intent and the generated snippet names the new
sheet "Sheet1", which the workbook already contains. -/
def c7Oracle : Oracle :=
  ⟨"resp",
   fun _ => some ⟨"create_new_sheet", none, some "Sheet1", none, "create a sheet"⟩,
   fun _ h => SnipOut.ok ⟨h, none, some "Sheet1", some c7Df⟩,
   fun _ => fun _ h => SnipOut.err "dummy" "dummy" h,
   fun _ h => SnipOut.err "dummy" "dummy" h⟩

/-- Filesystem of the C7 counterexample: a workbook whose only sheet is
already called "Sheet1". -/
def c7Fs : List (String × FileData) :=
  [("book.xlsx", ⟨emptyDf, [("Sheet1", ⟨["A"], []⟩)]⟩)]

/-- Counterexample to C7 as stated: a successful create run records the
new table under "Sheet1", which equals an existing sheet name of the
loaded workbook — the pipeline never checks distinctness. -/
theorem create_sheet_name_can_collide :
    ExcelAgent2.process_query_all_sheets c7Fs c7Oracle "20250101_000000" "book.xlsx" "create" =
      (.ok { intent := "create_new_sheet", sheets_processed := [],
             new_sheets := [("Sheet1", c7Df)], errors := [],
             saved_path := some "book_updated_20250101_000000.xlsx" }, 2) ∧
    (ExcelAgent2.load_all_sheets c7Fs "book.xlsx").map Workbook.sheet_names =
      .ok ["Sheet1"] :=
  ⟨rfl, rfl⟩

/-- The table of the C7 witness (two rows, as in the spec's
end-to-end scenario 2). -/
def c7wDf : Df := ⟨["Item"], [[("Item", "Eraser")], [("Item", "Ruler")]]⟩

/-- Oracle of the C7 witness: the snippet names the new sheet
"NewItems". -/
def c7wOracle : Oracle :=
  ⟨"resp",
   fun _ => some ⟨"create_new_sheet", none, some "NewItems", none, "create a sheet"⟩,
   fun _ h => SnipOut.ok ⟨h, none, some "NewItems", some c7wDf⟩,
   fun _ => fun _ h => SnipOut.err "dummy" "dummy" h,
   fun _ h => SnipOut.err "dummy" "dummy" h⟩

/-- Filesystem of the C7 witness. -/
def c7wFs : List (String × FileData) :=
  [("inv.xlsx", ⟨emptyDf, [("Invoice", ⟨["Item"], []⟩)]⟩)]

/-- Witness for C7 (amended) at the concrete create run of the
witness oracle. -/
theorem create_records_snippet_name_witness :
    ExcelAgent2.load_all_sheets c7wFs "inv.xlsx" = .ok ⟨[("Invoice", ⟨["Item"], []⟩)]⟩ ∧
    (ExcelAgent2.detect_query_intent c7wOracle.jsonParse c7wOracle.intentResponse "create").intent
      = "create_new_sheet" ∧
    (ExcelAgent2.execute_snippet c7wOracle.newSheetSnippet 0 [emptyDf]).1.ok = true ∧
    (ExcelAgent2.execute_snippet c7wOracle.newSheetSnippet 0 [emptyDf]).1.new_df = some c7wDf ∧
    ExcelAgent2.process_query_all_sheets c7wFs c7wOracle "20250101_000000" "inv.xlsx" "create" =
      (.ok { intent := "create_new_sheet", sheets_processed := [],
             new_sheets :=
               [(pyOrDefault
                   (ExcelAgent2.execute_snippet c7wOracle.newSheetSnippet 0 [emptyDf]).1.new_sheet_name
                   ("NewSheet_" ++ "20250101_000000"), c7wDf)],
             errors := [],
             saved_path := some (ExcelAgent2.save_updated_excel_path "inv.xlsx" "20250101_000000") }, 2) :=
  ⟨rfl, rfl, rfl, rfl,
    create_records_snippet_name c7wFs c7wOracle "20250101_000000" "inv.xlsx" "create"
      ⟨[("Invoice", ⟨["Item"], []⟩)]⟩ c7wDf rfl rfl rfl rfl⟩
